import Mathlib

/-!
# Scoring: churn-event generator (`docker/go/main.go`)

A shallow embedding of the Go program: the scoring function `calculateScore`,
the generation of one row, and the batch loader `main` with its two loops.
The global `math/rand` source and the database are made explicit: the random
source is a stream that is threaded through every call, the database is an
oracle that fixes the outcome of every call made to it.
-/

set_option autoImplicit false

namespace Scoring

/-! ## Constants (lines 14-23) -/

def BATCH_SIZE : Nat := 100000
def TOTAL_ROWS : Nat := 10000000
def CHURN_COMPANIES : Int := 4000

def eventTypes : List String :=
  ["LOGIN", "BID_SUBMITTED", "JOB_ACCEPTED", "SELF_PURCHASE_CANCEL",
   "INVOICE_DOWNLOAD", "TENDER_DELETE", "INACTIVE_30D"]

/-! ## The random source -/

/-- State of the global `math/rand` source: the raw values it will hand out,
in order. -/
abbrev Rand := Nat → Nat

namespace rand

/-- Go's `rand.Intn(n)`: for `n > 0` a value of `[0, n)`, and the source moves on.
The next raw value is reduced modulo `n`, so every value of `[0, n)` is
returned for some source and no other value ever is. (`n ≤ 0` panics in Go;
every call of the program passes a positive constant.) -/
def Intn (n : Nat) (g : Rand) : Nat × Rand :=
  (g 0 % n, fun k => g (k + 1))

end rand

/-! ## calculateScore (lines 25-47) -/

/-- The function `calculateScore` of lines 25-47; the values stay far inside the range of
`int`, so the arithmetic is exact. -/
def calculateScore (companyID : Int) (eventType : String) (g : Rand) : Int × Rand :=
  if companyID ≤ CHURN_COMPANIES then
    match eventType with
    | "SELF_PURCHASE_CANCEL" | "TENDER_DELETE" | "INACTIVE_30D" =>
      let (r, g) := rand.Intn 16 g
      (-(r : Int) - 10, g)
    | "LOGIN" | "BID_SUBMITTED" =>
      let (r, g) := rand.Intn 11 g
      (-(r : Int) - 2, g)
    | _ =>
      let (r, g) := rand.Intn 6 g
      (-(r : Int) - 1, g)
  else
    match eventType with
    | "JOB_ACCEPTED" =>
      let (r, g) := rand.Intn 16 g
      ((r : Int) + 15, g)
    | "INVOICE_DOWNLOAD" =>
      let (r, g) := rand.Intn 11 g
      ((r : Int) + 10, g)
    | "LOGIN" | "BID_SUBMITTED" =>
      let (r, g) := rand.Intn 11 g
      ((r : Int) + 3, g)
    | _ =>
      let (r, g) := rand.Intn 6 g
      ((r : Int) + 1, g)


/-- On the draw `r` of its single `rand.Intn n` call the score of `(companyID, eventType)`
is `scoreOfDraw companyID eventType r`: the source whose next value is `r`. -/
def scoreOfDraw (companyID : Int) (eventType : String) (r : Nat) : Int :=
  (calculateScore companyID eventType (fun _ => r)).1

/-- For the pair `(companyID, eventType)` the score is a function of the draw
`r = rand.Intn n`, and that function is a bijection from `[0, n)` onto `[lo, hi]`. -/
def DrawBijection (companyID : Int) (eventType : String) (n : Nat) (lo hi : Int) : Prop :=
  (∀ g : Rand, (calculateScore companyID eventType g).1
      = scoreOfDraw companyID eventType (rand.Intn n g).1) ∧
  Set.BijOn (scoreOfDraw companyID eventType) (Set.Iio n) (Set.Icc lo hi)

/-! ## One generated row (lines 84-92) -/

/-- Two's-complement wrap-around of 64-bit signed arithmetic (`int` on a 64-bit
platform, `int64`, `time.Duration`). -/
def wrapInt64 (x : Int) : Int :=
  (x + 2 ^ 63) % 2 ^ 64 - 2 ^ 63

namespace time

/-- Go's `time.Hour`, a `time.Duration` counted in nanoseconds. -/
def Hour : Int := 60 * (60 * (1000 * (1000 * 1000)))

end time

/-- The duration handed to `time.Now().Add` on line 91 for the draw `d = rand.Intn(365)`:
`-time.Duration(d*24)*time.Hour`, the unary minus binding before the product,
every operation in 64-bit arithmetic. -/
def eventOffset (d : Nat) : Int :=
  wrapInt64 (wrapInt64 (-(wrapInt64 ((d : Int) * 24))) * time.Hour)

/-- The arguments of one `stmt.Exec` call; `eventOffset` is the duration added to
`time.Now()` to form `event_time`. -/
structure Row where
  companyID : Int
  eventOffset : Int
  eventType : String
  scorePoints : Int
  totalScore : Int
deriving DecidableEq, Repr

/-- Lines 84-92 up to the call of `stmt.Exec`: the five values of a row, drawn in the
order of the source. `none` is the run-time panic of an index out of range. -/
def genRow (g : Rand) : Option (Row × Rand) :=
  let (c, g) := rand.Intn 10000 g
  let companyID : Int := (c : Int) + 1
  let (idx, g) := rand.Intn eventTypes.length g
  match eventTypes[idx]? with
  | none => none
  | some eventType =>
    let (scorePoints, g) := calculateScore companyID eventType g
    let (m, g) := rand.Intn 50 g
    let totalScore := wrapInt64 (scorePoints * ((m : Int) + 1))
    let (d, g) := rand.Intn 365 g
    some (⟨companyID, eventOffset d, eventType, scorePoints, totalScore⟩, g)

/-! ## The database and the trace of a run -/

/-- The outcome of every database call of a run, `true` for success: `sql.Open`,
then per batch `BeginTx`, `Prepare`, `Close` and `Commit`, and per batch and row index
`Exec`. -/
structure DB where
  openOk : Bool
  beginOk : Nat → Bool
  prepareOk : Nat → Bool
  execOk : Nat → Nat → Bool
  closeOk : Nat → Bool
  commitOk : Nat → Bool

/-- What a run does, in order. -/
inductive Event where
  | sqlOpen (ok : Bool)
  | beginTx (batch : Nat) (ok : Bool)
  | prepare (batch : Nat) (ok : Bool)
  | exec (batch i : Nat) (row : Row) (ok : Bool)
  | stmtClose (batch : Nat) (ok : Bool)
  | rollback (batch : Nat)
  | commit (batch : Nat) (ok : Bool)
  | logPrintf (msg : String)
  | logFatal (msg : String)
  | batchLine (batch rowsInserted : Nat)
  | complete
  | indexPanic
deriving DecidableEq, Repr

/-- How a run ends: after the summary line, in `log.Fatal`, or in a run-time panic. -/
inductive Outcome where
  | completed
  | fatal
  | panicked
deriving DecidableEq, Repr

structure Run where
  trace : List Event
  outcome : Outcome
deriving DecidableEq, Repr

/-- The guard of the inner loop on line 83. -/
def rowGuard (total batchSize batch i : Nat) : Bool :=
  decide (i < batchSize) && decide (batch * batchSize + i < total)

/-- The inner loop of lines 83-98, from row index `i` on with the counter at
`rowsInserted`: the events of the rows, the final counter and the random source, or
`none` after a panic (with the events up to it). -/
def insertLoop (total batchSize : Nat) (db : DB) (batch : Nat) (i rowsInserted : Nat)
    (g : Rand) : List Event × Option (Nat × Rand) :=
  if hguard : rowGuard total batchSize batch i = true then
    match genRow g with
    | none => ([Event.indexPanic], none)
    | some (row, g1) =>
      if db.execOk batch i then
        let r := insertLoop total batchSize db batch (i + 1) (rowsInserted + 1) g1
        (Event.exec batch i row true :: r.1, r.2)
      else
        let r := insertLoop total batchSize db batch (i + 1) rowsInserted g1
        (Event.exec batch i row false :: Event.logPrintf "Insert failed" :: r.1, r.2)
  else ([], some (rowsInserted, g))
termination_by batchSize - i
decreasing_by
  all_goals
    simp only [rowGuard, Bool.and_eq_true, decide_eq_true_eq] at hguard
    omega

/-- The outer loop of lines 64-113 from batch number `batch` on, followed by the
summary line of lines 115-117. -/
def batchLoop (total batchSize : Nat) (db : DB) (totalBatches batch : Nat) (g : Rand) :
    Run :=
  if batch < totalBatches then
    if db.beginOk batch then
      if db.prepareOk batch then
        match insertLoop total batchSize db batch 0 0 g with
        | (rows, none) =>
          ⟨Event.beginTx batch true :: Event.prepare batch true :: rows, Outcome.panicked⟩
        | (rows, some (rowsInserted, g1)) =>
          if db.closeOk batch then
            let rest := batchLoop total batchSize db totalBatches (batch + 1) g1
            ⟨Event.beginTx batch true :: Event.prepare batch true :: rows ++
              (Event.stmtClose batch true :: Event.commit batch (db.commitOk batch) ::
                (if db.commitOk batch then [] else [Event.logPrintf "Commit failed"]) ++
                (Event.batchLine batch rowsInserted :: rest.trace)), rest.outcome⟩
          else
            ⟨Event.beginTx batch true :: Event.prepare batch true :: rows ++
              [Event.stmtClose batch false, Event.rollback batch,
                Event.logFatal "Stmt close failed: "], Outcome.fatal⟩
      else
        ⟨[Event.beginTx batch true, Event.prepare batch false, Event.rollback batch,
          Event.logFatal "Prepare failed: "], Outcome.fatal⟩
    else
      ⟨[Event.beginTx batch false, Event.logFatal "Transaction failed: "], Outcome.fatal⟩
  else ⟨[Event.complete], Outcome.completed⟩
termination_by totalBatches - batch

/-- The function `main` of lines 49-118 for the constants `TOTAL_ROWS = total` and
`BATCH_SIZE = batchSize`, a database `db` and the freshly seeded random source `g`. -/
def mainWith (total batchSize : Nat) (db : DB) (g : Rand) : Run :=
  if db.openOk then
    let totalBatches := total / batchSize
    let r := batchLoop total batchSize db totalBatches 0 g
    ⟨Event.sqlOpen true :: r.trace, r.outcome⟩
  else
    ⟨[Event.sqlOpen false, Event.logFatal "Connection failed: "], Outcome.fatal⟩

/-- The program as it is written: `main` with the constants of lines 14-18. -/
def main (db : DB) (g : Rand) : Run :=
  mainWith TOTAL_ROWS BATCH_SIZE db g

/-! ## What is read off a trace -/

/-- Number of batches carried through to their progress line. -/
def batchesRun (tr : List Event) : Nat :=
  tr.countP fun e => match e with
    | Event.batchLine _ _ => true
    | _ => false

/-- Number of `stmt.Exec` calls made in batch `b`. -/
def attempts (b : Nat) (tr : List Event) : Nat :=
  tr.countP fun e => match e with
    | Event.exec b1 _ _ _ => b1 == b
    | _ => false

/-- Sum of the `rowsInserted` counters printed on the progress lines. -/
def insertedTotal (tr : List Event) : Nat :=
  (tr.map fun e => match e with
    | Event.batchLine _ n => n
    | _ => 0).sum

/-- Number of `stmt.Exec` calls that failed. -/
def failedExecs (tr : List Event) : Nat :=
  tr.countP fun e => match e with
    | Event.exec _ _ _ false => true
    | _ => false

/-- The `stmt.Exec` calls of a trace, in order: batch, row index and outcome of each. -/
def execCalls (tr : List Event) : List (Nat × Nat × Bool) :=
  tr.filterMap fun e => match e with
    | Event.exec b i _ ok => some (b, i, ok)
    | _ => none

/-- The progress lines of a trace, in order: batch and `rowsInserted` counter of each. -/
def batchLines (tr : List Event) : List (Nat × Nat) :=
  tr.filterMap fun e => match e with
    | Event.batchLine b n => some (b, n)
    | _ => none

/-- A list of `Exec` calls of batch `batch` and log lines. -/
def RowEvents (batch : Nat) (evs : List Event) : Prop :=
  ∀ e ∈ evs, (∃ j row ok, e = Event.exec batch j row ok) ∨ e = Event.logPrintf "Insert failed"


/-- No call fails among those that can end the run. -/
def Healthy (total batchSize : Nat) (db : DB) : Prop :=
  db.openOk = true ∧ ∀ b, b < total / batchSize →
    db.beginOk b = true ∧ db.prepareOk b = true ∧ db.closeOk b = true

/-! ## Sample inputs -/

/-- A database on which every call succeeds. -/
def allOk : DB :=
  ⟨true, fun _ => true, fun _ => true, fun _ _ => true, fun _ => true, fun _ => true⟩

/-- A database whose second `Exec` of every batch and whose first `Commit` fail. -/
def flakyRows : DB :=
  ⟨true, fun _ => true, fun _ => true, fun _ i => i != 1, fun _ => true, fun b => b != 0⟩

/-- A database whose `Prepare` fails in the third batch, after a failed first `Commit`. -/
def brokenPrepare : DB :=
  ⟨true, fun _ => true, fun b => b != 2, fun _ _ => true, fun _ => true, fun b => b != 0⟩

/-! ## Lemmas on calculateScore -/

theorem calculateScore_churn_heavy (companyID : Int) (eventType : String) (g : Rand)
    (hc : companyID ≤ 4000)
    (he : eventType = "SELF_PURCHASE_CANCEL" ∨ eventType = "TENDER_DELETE" ∨
      eventType = "INACTIVE_30D") :
    (calculateScore companyID eventType g).1 = -((g 0 % 16 : Nat) : Int) - 10 := by
  unfold calculateScore
  rw [if_pos (by simpa [CHURN_COMPANIES] using hc)]
  rcases he with h | h | h <;> subst h <;> rfl

theorem calculateScore_churn_low (companyID : Int) (eventType : String) (g : Rand)
    (hc : companyID ≤ 4000) (he : eventType = "LOGIN" ∨ eventType = "BID_SUBMITTED") :
    (calculateScore companyID eventType g).1 = -((g 0 % 11 : Nat) : Int) - 2 := by
  unfold calculateScore
  rw [if_pos (by simpa [CHURN_COMPANIES] using hc)]
  rcases he with h | h <;> subst h <;> rfl

theorem calculateScore_churn_other (companyID : Int) (eventType : String) (g : Rand)
    (hc : companyID ≤ 4000)
    (h1 : eventType ≠ "SELF_PURCHASE_CANCEL") (h2 : eventType ≠ "TENDER_DELETE")
    (h3 : eventType ≠ "INACTIVE_30D") (h4 : eventType ≠ "LOGIN")
    (h5 : eventType ≠ "BID_SUBMITTED") :
    (calculateScore companyID eventType g).1 = -((g 0 % 6 : Nat) : Int) - 1 := by
  unfold calculateScore
  rw [if_pos (by simpa [CHURN_COMPANIES] using hc)]
  split <;> first | contradiction | rfl

theorem calculateScore_healthy_job (companyID : Int) (eventType : String) (g : Rand)
    (hc : 4000 < companyID) (he : eventType = "JOB_ACCEPTED") :
    (calculateScore companyID eventType g).1 = ((g 0 % 16 : Nat) : Int) + 15 := by
  unfold calculateScore
  rw [if_neg (by simpa [CHURN_COMPANIES] using hc)]
  subst he; rfl

theorem calculateScore_healthy_invoice (companyID : Int) (eventType : String) (g : Rand)
    (hc : 4000 < companyID) (he : eventType = "INVOICE_DOWNLOAD") :
    (calculateScore companyID eventType g).1 = ((g 0 % 11 : Nat) : Int) + 10 := by
  unfold calculateScore
  rw [if_neg (by simpa [CHURN_COMPANIES] using hc)]
  subst he; rfl

theorem calculateScore_healthy_low (companyID : Int) (eventType : String) (g : Rand)
    (hc : 4000 < companyID) (he : eventType = "LOGIN" ∨ eventType = "BID_SUBMITTED") :
    (calculateScore companyID eventType g).1 = ((g 0 % 11 : Nat) : Int) + 3 := by
  unfold calculateScore
  rw [if_neg (by simpa [CHURN_COMPANIES] using hc)]
  rcases he with h | h <;> subst h <;> rfl

theorem calculateScore_healthy_other (companyID : Int) (eventType : String) (g : Rand)
    (hc : 4000 < companyID)
    (h1 : eventType ≠ "JOB_ACCEPTED") (h2 : eventType ≠ "INVOICE_DOWNLOAD")
    (h3 : eventType ≠ "LOGIN") (h4 : eventType ≠ "BID_SUBMITTED") :
    (calculateScore companyID eventType g).1 = ((g 0 % 6 : Nat) : Int) + 1 := by
  unfold calculateScore
  rw [if_neg (by simpa [CHURN_COMPANIES] using hc)]
  split <;> first | contradiction | rfl

/-- Every score lies in `[-25, -1]` for a churn company and in `[1, 30]` for a healthy
one. -/
theorem calculateScore_range (companyID : Int) (eventType : String) (g : Rand) :
    (companyID ≤ 4000 → -25 ≤ (calculateScore companyID eventType g).1 ∧
      (calculateScore companyID eventType g).1 ≤ -1) ∧
    (4000 < companyID → 1 ≤ (calculateScore companyID eventType g).1 ∧
      (calculateScore companyID eventType g).1 ≤ 30) := by
  constructor
  · intro hc
    unfold calculateScore
    rw [if_pos (by simpa [CHURN_COMPANIES] using hc)]
    split <;> simp only [rand.Intn] <;> omega
  · intro hc
    unfold calculateScore
    rw [if_neg (by simpa [CHURN_COMPANIES] using hc)]
    split <;> simp only [rand.Intn] <;> omega

/-! ## Lemmas on the generation of a row -/

theorem Intn_lt (n : Nat) (g : Rand) (h : 0 < n) : (rand.Intn n g).1 < n :=
  Nat.mod_lt _ h

theorem eventTypes_lookup (i : Nat) (h : i < 7) :
    ∃ s, eventTypes[i]? = some s ∧
      (s = "LOGIN" ∨ s = "BID_SUBMITTED" ∨ s = "JOB_ACCEPTED" ∨ s = "SELF_PURCHASE_CANCEL" ∨
        s = "INVOICE_DOWNLOAD" ∨ s = "TENDER_DELETE" ∨ s = "INACTIVE_30D") := by
  interval_cases i <;> simp [eventTypes]

theorem genRow_some (g : Rand) : ∃ row g1, genRow g = some (row, g1) := by
  obtain ⟨s, hs, -⟩ := eventTypes_lookup ((rand.Intn eventTypes.length (rand.Intn 10000 g).2).1)
    (Intn_lt _ _ (by decide))
  unfold genRow
  simp only [hs]
  exact ⟨_, _, rfl⟩

/-! ## Lemmas on traces -/

theorem batchesRun_append (xs ys : List Event) :
    batchesRun (xs ++ ys) = batchesRun xs + batchesRun ys := by
  simp [batchesRun]

theorem attempts_append (b : Nat) (xs ys : List Event) :
    attempts b (xs ++ ys) = attempts b xs + attempts b ys := by
  simp [attempts]

theorem insertedTotal_append (xs ys : List Event) :
    insertedTotal (xs ++ ys) = insertedTotal xs + insertedTotal ys := by
  simp [insertedTotal]

theorem failedExecs_append (xs ys : List Event) :
    failedExecs (xs ++ ys) = failedExecs xs + failedExecs ys := by
  simp [failedExecs]

/-! ## Lemmas on the inner loop -/

/-- The inner loop never panics; its events are `Exec` calls of its own batch and log
lines, and the counter grows by the number of `Exec` calls that succeeded. -/
theorem insertLoop_spec (total batchSize : Nat) (db : DB) (batch : Nat) (i k : Nat)
    (g : Rand) :
    ∃ n g1, (insertLoop total batchSize db batch i k g).2 = some (n, g1) ∧
      n + failedExecs (insertLoop total batchSize db batch i k g).1
        = k + attempts batch (insertLoop total batchSize db batch i k g).1 ∧
      (∀ e ∈ (insertLoop total batchSize db batch i k g).1,
        (∃ j row ok, e = Event.exec batch j row ok) ∨ e = Event.logPrintf "Insert failed") := by
  induction i, k, g using insertLoop.induct total batchSize db batch with
  | case1 i k g hg hr =>
    obtain ⟨row, g1, h⟩ := genRow_some g
    rw [h] at hr
    cases hr
  | case2 i k g hg row g1 hr hx ih =>
    obtain ⟨n, g2, h1, h2, h3⟩ := ih
    rw [insertLoop, dif_pos hg]
    simp only [hr, hx, if_true]
    refine ⟨n, g2, h1, ?_, ?_⟩
    · simp only [failedExecs, attempts, List.countP_cons] at h2 ⊢
      simp
      omega
    · intro e he
      rcases List.mem_cons.1 he with rfl | he
      · exact Or.inl ⟨_, _, _, rfl⟩
      · exact h3 e he
  | case3 i k g hg row g1 hr hx ih =>
    obtain ⟨n, g2, h1, h2, h3⟩ := ih
    rw [insertLoop, dif_pos hg]
    simp only [hr, hx]
    refine ⟨n, g2, h1, ?_, ?_⟩
    · simp only [failedExecs, attempts, List.countP_cons] at h2 ⊢
      simp
      omega
    · intro e he
      rcases List.mem_cons.1 he with rfl | he
      · exact Or.inl ⟨_, _, _, rfl⟩
      · rcases List.mem_cons.1 he with rfl | he
        · exact Or.inr rfl
        · exact h3 e he
  | case4 i k g hg =>
    rw [insertLoop, dif_neg hg]
    exact ⟨k, g, rfl, by simp [failedExecs, attempts], by simp⟩

/-- With the whole batch below `total`, the inner loop makes one `Exec` call for each
remaining row index. -/
theorem insertLoop_attempts (total batchSize : Nat) (db : DB) (batch : Nat) (i k : Nat)
    (g : Rand) (hb : (batch + 1) * batchSize ≤ total) (hi : i ≤ batchSize) :
    attempts batch (insertLoop total batchSize db batch i k g).1 = batchSize - i := by
  induction i, k, g using insertLoop.induct total batchSize db batch with
  | case1 i k g hg hr =>
    obtain ⟨row, g1, h⟩ := genRow_some g
    rw [h] at hr
    cases hr
  | case2 i k g hg row g1 hr hx ih =>
    have hlt : i < batchSize := by
      simp only [rowGuard, Bool.and_eq_true, decide_eq_true_eq] at hg
      exact hg.1
    rw [insertLoop, dif_pos hg]
    simp only [hr, hx, if_true]
    have := ih hlt
    simp only [attempts, List.countP_cons] at this ⊢
    simp
    omega
  | case3 i k g hg row g1 hr hx ih =>
    have hlt : i < batchSize := by
      simp only [rowGuard, Bool.and_eq_true, decide_eq_true_eq] at hg
      exact hg.1
    rw [insertLoop, dif_pos hg]
    simp only [hr, hx]
    have := ih hlt
    simp only [attempts, List.countP_cons] at this ⊢
    simp
    omega
  | case4 i k g hg =>
    rw [insertLoop, dif_neg hg]
    have : ¬ i < batchSize := by
      intro hlt
      apply hg
      simp only [rowGuard, Bool.and_eq_true, decide_eq_true_eq]
      refine ⟨hlt, ?_⟩
      have : batch * batchSize + batchSize ≤ total := by
        simpa [Nat.add_mul] using hb
      omega
    simp [attempts]
    omega

theorem RowEvents.batchesRun_eq {batch : Nat} {evs : List Event} (h : RowEvents batch evs) :
    batchesRun evs = 0 := by
  induction evs with
  | nil => rfl
  | cons e es ih =>
    have ih := ih (fun x hx => h x (List.mem_cons_of_mem _ hx))
    rcases h e (List.mem_cons_self _ _) with ⟨j, row, ok, rfl⟩ | rfl <;>
      simpa [batchesRun] using ih

theorem RowEvents.insertedTotal_eq {batch : Nat} {evs : List Event} (h : RowEvents batch evs) :
    insertedTotal evs = 0 := by
  induction evs with
  | nil => rfl
  | cons e es ih =>
    have ih := ih (fun x hx => h x (List.mem_cons_of_mem _ hx))
    rcases h e (List.mem_cons_self _ _) with ⟨j, row, ok, rfl⟩ | rfl <;>
      simpa [insertedTotal] using ih

theorem RowEvents.attempts_other {batch b : Nat} {evs : List Event} (h : RowEvents batch evs)
    (hb : batch ≠ b) : attempts b evs = 0 := by
  induction evs with
  | nil => rfl
  | cons e es ih =>
    have ih := ih (fun x hx => h x (List.mem_cons_of_mem _ hx))
    rcases h e (List.mem_cons_self _ _) with ⟨j, row, ok, rfl⟩ | rfl <;>
      simpa [attempts, hb] using ih

/-! ## Lemmas on the outer loop -/

theorem batchLoop_done (total batchSize : Nat) (db : DB) (nb batch : Nat) (g : Rand)
    (h : ¬ batch < nb) :
    batchLoop total batchSize db nb batch g = ⟨[Event.complete], Outcome.completed⟩ := by
  rw [batchLoop, if_neg h]

theorem batchLoop_begin_failed (total batchSize : Nat) (db : DB) (nb batch : Nat) (g : Rand)
    (h : batch < nb) (hb : db.beginOk batch = false) :
    batchLoop total batchSize db nb batch g =
      ⟨[Event.beginTx batch false, Event.logFatal "Transaction failed: "], Outcome.fatal⟩ := by
  rw [batchLoop, if_pos h, if_neg (by simp [hb])]

theorem batchLoop_prepare_failed (total batchSize : Nat) (db : DB) (nb batch : Nat) (g : Rand)
    (h : batch < nb) (hb : db.beginOk batch = true) (hp : db.prepareOk batch = false) :
    batchLoop total batchSize db nb batch g =
      ⟨[Event.beginTx batch true, Event.prepare batch false, Event.rollback batch,
        Event.logFatal "Prepare failed: "], Outcome.fatal⟩ := by
  rw [batchLoop, if_pos h, if_pos hb, if_neg (by simp [hp])]

/-- One turn of the outer loop whose `BeginTx` and `Prepare` succeed. -/
theorem batchLoop_step (total batchSize : Nat) (db : DB) (nb batch : Nat) (g : Rand)
    (h : batch < nb) (hb : db.beginOk batch = true) (hp : db.prepareOk batch = true) :
    ∃ rows n g1, insertLoop total batchSize db batch 0 0 g = (rows, some (n, g1)) ∧
      (db.closeOk batch = false →
        batchLoop total batchSize db nb batch g =
          ⟨Event.beginTx batch true :: Event.prepare batch true :: rows ++
            [Event.stmtClose batch false, Event.rollback batch,
              Event.logFatal "Stmt close failed: "], Outcome.fatal⟩) ∧
      (db.closeOk batch = true →
        batchLoop total batchSize db nb batch g =
          ⟨Event.beginTx batch true :: Event.prepare batch true :: rows ++
            (Event.stmtClose batch true :: Event.commit batch (db.commitOk batch) ::
              (if db.commitOk batch then [] else [Event.logPrintf "Commit failed"]) ++
              (Event.batchLine batch n ::
                (batchLoop total batchSize db nb (batch + 1) g1).trace)),
            (batchLoop total batchSize db nb (batch + 1) g1).outcome⟩) := by
  obtain ⟨n, g1, h1, -, -⟩ := insertLoop_spec total batchSize db batch 0 0 g
  have hpair : insertLoop total batchSize db batch 0 0 g
      = ((insertLoop total batchSize db batch 0 0 g).1, some (n, g1)) := by
    rw [← h1]
  refine ⟨_, n, g1, hpair, ?_, ?_⟩
  · intro hc
    rw [batchLoop, if_pos h, if_pos hb, if_pos hp, hpair]
    simp [hc]
  · intro hc
    rw [batchLoop, if_pos h, if_pos hb, if_pos hp, hpair]
    simp [hc]

theorem insertLoop_rowEvents (total batchSize : Nat) (db : DB) (batch : Nat) (i k : Nat)
    (g : Rand) : RowEvents batch (insertLoop total batchSize db batch i k g).1 :=
  (insertLoop_spec total batchSize db batch i k g).choose_spec.choose_spec.2.2

/-- The outer loop ends in `log.Fatal` exactly when `BeginTx`, `Prepare` or `Close` fails
in one of the batches still to run, and completes otherwise. -/
theorem batchLoop_outcome (total batchSize : Nat) (db : DB) (nb : Nat) (d : Nat) :
    ∀ (batch : Nat) (g : Rand), nb - batch = d →
      ((∀ b, batch ≤ b → b < nb →
          db.beginOk b = true ∧ db.prepareOk b = true ∧ db.closeOk b = true) →
        (batchLoop total batchSize db nb batch g).outcome = Outcome.completed) ∧
      ((∃ b, batch ≤ b ∧ b < nb ∧
          (db.beginOk b = false ∨ db.prepareOk b = false ∨ db.closeOk b = false)) →
        (batchLoop total batchSize db nb batch g).outcome = Outcome.fatal) := by
  induction d with
  | zero =>
    intro batch g hd
    have h : ¬ batch < nb := by omega
    rw [batchLoop_done _ _ _ _ _ _ h]
    refine ⟨fun _ => rfl, ?_⟩
    rintro ⟨b, h1, h2, -⟩
    omega
  | succ d ih =>
    intro batch g hd
    have h : batch < nb := by omega
    cases hb : db.beginOk batch with
    | false =>
      rw [batchLoop_begin_failed _ _ _ _ _ _ h hb]
      refine ⟨fun hall => ?_, fun _ => rfl⟩
      have := (hall batch (Nat.le_refl _) h).1
      rw [hb] at this
      cases this
    | true =>
      cases hp : db.prepareOk batch with
      | false =>
        rw [batchLoop_prepare_failed _ _ _ _ _ _ h hb hp]
        refine ⟨fun hall => ?_, fun _ => rfl⟩
        have := (hall batch (Nat.le_refl _) h).2.1
        rw [hp] at this
        cases this
      | true =>
        obtain ⟨rows, n, g1, -, hfail, hok⟩ :=
          batchLoop_step total batchSize db nb batch g h hb hp
        cases hc : db.closeOk batch with
        | false =>
          rw [hfail hc]
          refine ⟨fun hall => ?_, fun _ => rfl⟩
          have := (hall batch (Nat.le_refl _) h).2.2
          rw [hc] at this
          cases this
        | true =>
          rw [hok hc]
          obtain ⟨ih1, ih2⟩ := ih (batch + 1) g1 (by omega)
          refine ⟨fun hall => ih1 (fun b h1 h2 => hall b (by omega) h2), ?_⟩
          rintro ⟨b, h1, h2, h3⟩
          apply ih2
          refine ⟨b, ?_, h2, h3⟩
          rcases Nat.eq_or_lt_of_le h1 with rfl | hlt
          · rw [hb, hp, hc] at h3
            simp at h3
          · exact hlt

/-- Counts read off the trace of the outer loop. -/
theorem batchLoop_counts (total batchSize : Nat) (db : DB) (nb : Nat) (d : Nat) :
    ∀ (batch : Nat) (g : Rand), nb - batch = d →
      ((batchLoop total batchSize db nb batch g).outcome = Outcome.completed →
        batchesRun (batchLoop total batchSize db nb batch g).trace = nb - batch) ∧
      ((batchLoop total batchSize db nb batch g).outcome = Outcome.fatal →
        batchesRun (batchLoop total batchSize db nb batch g).trace < nb - batch) ∧
      (∀ b, b < batch → attempts b (batchLoop total batchSize db nb batch g).trace = 0) ∧
      (nb * batchSize ≤ total →
        (batchLoop total batchSize db nb batch g).outcome = Outcome.completed →
        (∀ b, batch ≤ b → b < nb →
          attempts b (batchLoop total batchSize db nb batch g).trace = batchSize) ∧
        insertedTotal (batchLoop total batchSize db nb batch g).trace +
          failedExecs (batchLoop total batchSize db nb batch g).trace
            = (nb - batch) * batchSize) := by
  induction d with
  | zero =>
    intro batch g hd
    have h : ¬ batch < nb := by omega
    rw [batchLoop_done _ _ _ _ _ _ h]
    refine ⟨fun _ => ?_, fun hf => ?_, fun b _ => ?_, fun _ _ => ⟨fun b h1 h2 => ?_, ?_⟩⟩
    · simp [batchesRun]; omega
    · cases hf
    · simp [attempts]
    · omega
    · simp [insertedTotal, failedExecs]; omega
  | succ d ih =>
    intro batch g hd
    have h : batch < nb := by omega
    cases hb : db.beginOk batch with
    | false =>
      rw [batchLoop_begin_failed _ _ _ _ _ _ h hb]
      refine ⟨fun hf => ?_, fun _ => ?_, fun b _ => ?_, fun _ hf => ?_⟩
      · cases hf
      · simp [batchesRun]; omega
      · simp [attempts]
      · cases hf
    | true =>
      cases hp : db.prepareOk batch with
      | false =>
        rw [batchLoop_prepare_failed _ _ _ _ _ _ h hb hp]
        refine ⟨fun hf => ?_, fun _ => ?_, fun b _ => ?_, fun _ hf => ?_⟩
        · cases hf
        · simp [batchesRun]; omega
        · simp [attempts]
        · cases hf
      | true =>
        obtain ⟨rows, n, g1, hrows, hfail, hok⟩ :=
          batchLoop_step total batchSize db nb batch g h hb hp
        have hre : RowEvents batch rows := by
          have := insertLoop_rowEvents total batchSize db batch 0 0 g
          rwa [hrows] at this
        have hsum : n + failedExecs rows = attempts batch rows := by
          obtain ⟨n1, g2, e1, e2, -⟩ := insertLoop_spec total batchSize db batch 0 0 g
          rw [hrows] at e1 e2
          simp only [Option.some.injEq, Prod.mk.injEq] at e1
          obtain ⟨rfl, -⟩ := e1
          simpa using e2
        cases hc : db.closeOk batch with
        | false =>
          rw [hfail hc]
          refine ⟨fun hf => ?_, fun _ => ?_, fun b hlt => ?_, fun _ hf => ?_⟩
          · cases hf
          · have := hre.batchesRun_eq
            simp only [batchesRun] at this ⊢
            simp [this]
            omega
          · have := hre.attempts_other (Nat.ne_of_gt hlt)
            simp only [attempts] at this ⊢
            simp [this]
          · cases hf
        | true =>
          rw [hok hc]
          obtain ⟨ih1, ih2, ih3, ih4⟩ := ih (batch + 1) g1 (by omega)
          have hbr := hre.batchesRun_eq
          have hit := hre.insertedTotal_eq
          refine ⟨fun hf => ?_, fun hf => ?_, fun b hlt => ?_, fun hnb hf => ⟨fun b h1 h2 => ?_, ?_⟩⟩
          · have := ih1 hf
            simp only [batchesRun] at this hbr ⊢
            cases db.commitOk batch <;> simp [this, hbr] <;> omega
          · have := ih2 hf
            simp only [batchesRun] at this hbr ⊢
            cases db.commitOk batch <;> simp [hbr] <;> omega
          · have h1 := hre.attempts_other (Nat.ne_of_gt hlt)
            have h2 := ih3 b (by omega)
            simp only [attempts] at h1 h2 ⊢
            cases db.commitOk batch <;> simp [h1, h2]
          · have hatt : attempts batch rows = batchSize := by
              have := insertLoop_attempts total batchSize db batch 0 0 g
                (le_trans (Nat.mul_le_mul_right _ h) hnb) (Nat.zero_le _)
              rw [hrows] at this
              simpa using this
            rcases Nat.eq_or_lt_of_le h1 with rfl | hlt
            · have h3 := ih3 batch (by omega)
              simp only [attempts] at hatt h3 ⊢
              cases db.commitOk batch <;> simp [hatt, h3]
            · have h3 := (ih4 hnb hf).1 b hlt h2
              have h4 := hre.attempts_other (Nat.ne_of_lt hlt)
              simp only [attempts] at h3 h4 ⊢
              cases db.commitOk batch <;> simp [h3, h4]
          · have hatt : attempts batch rows = batchSize := by
              have := insertLoop_attempts total batchSize db batch 0 0 g
                (le_trans (Nat.mul_le_mul_right _ h) hnb) (Nat.zero_le _)
              rw [hrows] at this
              simpa using this
            have h3 := (ih4 hnb hf).2
            have h5 : (nb - batch) * batchSize = (nb - (batch + 1)) * batchSize + batchSize := by
              have : nb - batch = (nb - (batch + 1)) + 1 := by omega
              rw [this, Nat.add_mul, Nat.one_mul]
            rw [h5, ← h3, ← hatt, ← hsum]
            simp only [insertedTotal, failedExecs] at hit ⊢
            cases db.commitOk batch <;> simp [hit] <;> omega

/-- While `BeginTx`, `Prepare` and `Close` succeed the outer loop goes on: the run from
batch `batch` reaches batch `b`, and continues as the run from `b`. -/
theorem batchLoop_reach (total batchSize : Nat) (db : DB) (nb b : Nat) (d : Nat) :
    ∀ (batch : Nat) (g : Rand), b - batch = d → batch ≤ b → b ≤ nb →
      (∀ c, batch ≤ c → c < b →
        db.beginOk c = true ∧ db.prepareOk c = true ∧ db.closeOk c = true) →
      ∃ pre g1,
        (batchLoop total batchSize db nb batch g).trace
          = pre ++ (batchLoop total batchSize db nb b g1).trace ∧
        (batchLoop total batchSize db nb batch g).outcome
          = (batchLoop total batchSize db nb b g1).outcome := by
  induction d with
  | zero =>
    intro batch g hd h1 _ _
    have : batch = b := by omega
    subst this
    exact ⟨[], g, rfl, rfl⟩
  | succ d ih =>
    intro batch g hd h1 h2 hall
    have hlt : batch < b := by omega
    obtain ⟨hb, hp, hc⟩ := hall batch (Nat.le_refl _) hlt
    obtain ⟨rows, n, g1, -, -, hok⟩ :=
      batchLoop_step total batchSize db nb batch g (by omega) hb hp
    obtain ⟨pre, g2, e1, e2⟩ := ih (batch + 1) g1 (by omega) (by omega) h2
      (fun c h3 h4 => hall c (by omega) h4)
    rw [hok hc]
    refine ⟨Event.beginTx batch true :: Event.prepare batch true :: rows ++
      (Event.stmtClose batch true :: Event.commit batch (db.commitOk batch) ::
        (if db.commitOk batch then [] else [Event.logPrintf "Commit failed"]) ++
        (Event.batchLine batch n :: pre)), g2, ?_, e2⟩
    simp only [e1, List.cons_append, List.append_assoc]

/-- A batch that is run starts with its `BeginTx` call. -/
theorem batchLoop_head (total batchSize : Nat) (db : DB) (nb batch : Nat) (g : Rand)
    (h : batch < nb) :
    ∃ post, (batchLoop total batchSize db nb batch g).trace
      = Event.beginTx batch (db.beginOk batch) :: post := by
  cases hb : db.beginOk batch with
  | false =>
    rw [batchLoop_begin_failed _ _ _ _ _ _ h hb]
    exact ⟨_, rfl⟩
  | true =>
    cases hp : db.prepareOk batch with
    | false =>
      rw [batchLoop_prepare_failed _ _ _ _ _ _ h hb hp]
      exact ⟨_, rfl⟩
    | true =>
      obtain ⟨rows, n, g1, -, hfail, hok⟩ :=
        batchLoop_step total batchSize db nb batch g h hb hp
      cases hc : db.closeOk batch with
      | false =>
        rw [hfail hc]
        exact ⟨_, rfl⟩
      | true =>
        rw [hok hc]
        exact ⟨_, rfl⟩

/-- A failed `Prepare` is followed by `Rollback` and `log.Fatal`, which end the run. -/
theorem batchLoop_prepare_rollback (total batchSize : Nat) (db : DB) (nb batch : Nat)
    (g : Rand) (h : batch < nb) (hb : db.beginOk batch = true)
    (hp : db.prepareOk batch = false) :
    ∃ pre, (batchLoop total batchSize db nb batch g).trace
        = pre ++ [Event.prepare batch false, Event.rollback batch,
            Event.logFatal "Prepare failed: "] := by
  rw [batchLoop_prepare_failed _ _ _ _ _ _ h hb hp]
  exact ⟨[Event.beginTx batch true], rfl⟩

/-- A failed `Close` is followed by `Rollback` and `log.Fatal`, which end the run. -/
theorem batchLoop_close_rollback (total batchSize : Nat) (db : DB) (nb batch : Nat)
    (g : Rand) (h : batch < nb) (hb : db.beginOk batch = true)
    (hp : db.prepareOk batch = true) (hc : db.closeOk batch = false) :
    ∃ pre, (batchLoop total batchSize db nb batch g).trace
        = pre ++ [Event.stmtClose batch false, Event.rollback batch,
            Event.logFatal "Stmt close failed: "] := by
  obtain ⟨rows, n, g1, -, hfail, -⟩ :=
    batchLoop_step total batchSize db nb batch g h hb hp
  rw [hfail hc]
  exact ⟨Event.beginTx batch true :: Event.prepare batch true :: rows, rfl⟩

/-- A failed `Commit` is logged, the progress line is printed, and the next batch is
begun. -/
theorem batchLoop_commit_failed (total batchSize : Nat) (db : DB) (nb batch : Nat) (g : Rand)
    (h : batch + 1 < nb) (hb : db.beginOk batch = true) (hp : db.prepareOk batch = true)
    (hc : db.closeOk batch = true) (hm : db.commitOk batch = false) :
    ∃ pre n post, (batchLoop total batchSize db nb batch g).trace
        = pre ++ Event.commit batch false :: Event.logPrintf "Commit failed" ::
            Event.batchLine batch n :: Event.beginTx (batch + 1) (db.beginOk (batch + 1)) ::
            post := by
  obtain ⟨rows, n, g1, -, -, hok⟩ :=
    batchLoop_step total batchSize db nb batch g (by omega) hb hp
  obtain ⟨post, hpost⟩ := batchLoop_head total batchSize db nb (batch + 1) g1 h
  rw [hok hc, hpost, hm]
  refine ⟨Event.beginTx batch true :: Event.prepare batch true :: rows ++
    [Event.stmtClose batch true], n, post, ?_⟩
  simp

/-! ## Lemmas on the whole run -/

theorem mainWith_open_failed (total batchSize : Nat) (db : DB) (g : Rand)
    (h : db.openOk = false) :
    mainWith total batchSize db g
      = ⟨[Event.sqlOpen false, Event.logFatal "Connection failed: "], Outcome.fatal⟩ := by
  simp [mainWith, h]

theorem mainWith_opened (total batchSize : Nat) (db : DB) (g : Rand) (h : db.openOk = true) :
    mainWith total batchSize db g
      = ⟨Event.sqlOpen true :: (batchLoop total batchSize db (total / batchSize) 0 g).trace,
          (batchLoop total batchSize db (total / batchSize) 0 g).outcome⟩ := by
  simp [mainWith, h]

theorem not_healthy (total batchSize : Nat) (db : DB) (h : ¬ Healthy total batchSize db) :
    db.openOk = false ∨ ∃ b, b < total / batchSize ∧
      (db.beginOk b = false ∨ db.prepareOk b = false ∨ db.closeOk b = false) := by
  by_contra hcon
  push_neg at hcon
  apply h
  refine ⟨by simpa using hcon.1, fun b hb => ?_⟩
  have := hcon.2 b hb
  simpa using this

theorem mainWith_completed (total batchSize : Nat) (db : DB) (g : Rand)
    (h : Healthy total batchSize db) :
    (mainWith total batchSize db g).outcome = Outcome.completed := by
  rw [mainWith_opened _ _ _ _ h.1]
  exact (batchLoop_outcome total batchSize db _ _ 0 g rfl).1 (fun b _ hb => h.2 b hb)

theorem mainWith_fatal (total batchSize : Nat) (db : DB) (g : Rand)
    (h : db.openOk = false ∨ ∃ b, b < total / batchSize ∧
      (db.beginOk b = false ∨ db.prepareOk b = false ∨ db.closeOk b = false)) :
    (mainWith total batchSize db g).outcome = Outcome.fatal := by
  cases ho : db.openOk with
  | false => rw [mainWith_open_failed _ _ _ _ ho]
  | true =>
    rw [mainWith_opened _ _ _ _ ho]
    rcases h with h | ⟨b, hb, hf⟩
    · rw [ho] at h; cases h
    · exact (batchLoop_outcome total batchSize db _ _ 0 g rfl).2 ⟨b, Nat.zero_le _, hb, hf⟩

theorem mainWith_healthy_of_not_fatal (total batchSize : Nat) (db : DB) (g : Rand)
    (h : (mainWith total batchSize db g).outcome ≠ Outcome.fatal) :
    Healthy total batchSize db := by
  by_contra hcon
  exact h (mainWith_fatal total batchSize db g (not_healthy _ _ _ hcon))

theorem div_mul_le_total (total batchSize : Nat) : total / batchSize * batchSize ≤ total :=
  Nat.div_mul_le_self total batchSize

theorem div_mul_eq_sub_mod (total batchSize : Nat) :
    total / batchSize * batchSize = total - total % batchSize := by
  have := Nat.div_add_mod total batchSize
  rw [Nat.mul_comm] at this
  omega

/-- Counts read off the trace of a run that does not end in `log.Fatal`. -/
theorem mainWith_counts (total batchSize : Nat) (db : DB) (g : Rand)
    (hrun : (mainWith total batchSize db g).outcome ≠ Outcome.fatal) :
    batchesRun (mainWith total batchSize db g).trace = total / batchSize ∧
    (∀ batch, batch < total / batchSize →
      attempts batch (mainWith total batchSize db g).trace = batchSize) ∧
    insertedTotal (mainWith total batchSize db g).trace
      + failedExecs (mainWith total batchSize db g).trace = total - total % batchSize := by
  have hh := mainWith_healthy_of_not_fatal total batchSize db g hrun
  have hc : (batchLoop total batchSize db (total / batchSize) 0 g).outcome
      = Outcome.completed :=
    (batchLoop_outcome total batchSize db _ _ 0 g rfl).1 (fun b _ hb => hh.2 b hb)
  obtain ⟨h1, -, -, h4⟩ := batchLoop_counts total batchSize db (total / batchSize) _ 0 g rfl
  obtain ⟨h5, h6⟩ := h4 (div_mul_le_total total batchSize) hc
  rw [Nat.sub_zero, div_mul_eq_sub_mod] at h6
  rw [mainWith_opened _ _ _ _ hh.1]
  refine ⟨?_, fun batch hb => ?_, ?_⟩
  · have := h1 hc
    simp only [batchesRun] at this ⊢
    simpa using this
  · have := h5 batch (Nat.zero_le _) hb
    simp only [attempts] at this ⊢
    simpa using this
  · simp only [insertedTotal, failedExecs] at h6 ⊢
    simpa using h6

/-- The guard of the inner loop holds at every row of every batch that is run. -/
theorem rowGuard_of_lt (total batchSize batch i : Nat) (hb : batch < total / batchSize)
    (hi : i < batchSize) :
    rowGuard total batchSize batch i = true ∧ batch * batchSize + i < total := by
  have h6 : (batch + 1) * batchSize ≤ total :=
    le_trans (Nat.mul_le_mul_right _ hb) (div_mul_le_total total batchSize)
  have h7 : batch * batchSize + i < total := by
    rw [Nat.add_mul, Nat.one_mul] at h6
    omega
  exact ⟨by simp [rowGuard, hi, h7], h7⟩

/-- The program with its own constants: a run that does not end in `log.Fatal` carries 100
batches of 100000 `Exec` calls through, 10000000 calls in all. -/
theorem main_counts (db : DB) (g : Rand) (hrun : (main db g).outcome ≠ Outcome.fatal) :
    batchesRun (main db g).trace = 100 ∧
    (∀ batch, batch < 100 → attempts batch (main db g).trace = 100000) ∧
    insertedTotal (main db g).trace + failedExecs (main db g).trace = 10000000 := by
  have h := mainWith_counts TOTAL_ROWS BATCH_SIZE db g hrun
  have e1 : TOTAL_ROWS / BATCH_SIZE = 100 := by norm_num [TOTAL_ROWS, BATCH_SIZE]
  have e2 : TOTAL_ROWS - TOTAL_ROWS % BATCH_SIZE = 10000000 := by
    norm_num [TOTAL_ROWS, BATCH_SIZE]
  rw [e1, e2] at h
  exact ⟨h.1, fun batch hb => by simpa [BATCH_SIZE] using h.2.1 batch hb, h.2.2⟩

/-! ## Lemmas on the order of the `Exec` calls -/

theorem RowEvents.batchLines_eq {batch : Nat} {evs : List Event} (h : RowEvents batch evs) :
    batchLines evs = [] := by
  induction evs with
  | nil => rfl
  | cons e es ih =>
    have ih := ih (fun x hx => h x (List.mem_cons_of_mem _ hx))
    rcases h e (List.mem_cons_self _ _) with ⟨j, row, ok, rfl⟩ | rfl <;>
      simpa [batchLines] using ih

/-- With the whole batch below `total`, the inner loop calls `Exec` once for each remaining
row index, in order, whatever the outcomes, and counts the calls that succeed. -/
theorem insertLoop_execs (total batchSize : Nat) (db : DB) (batch : Nat) (i k : Nat)
    (g : Rand) (hb : (batch + 1) * batchSize ≤ total) (hi : i ≤ batchSize) :
    execCalls (insertLoop total batchSize db batch i k g).1
      = (List.range' i (batchSize - i)).map (fun j => (batch, j, db.execOk batch j)) ∧
    ∃ g1, (insertLoop total batchSize db batch i k g).2
      = some (k + (List.range' i (batchSize - i)).countP (fun j => db.execOk batch j), g1) := by
  induction i, k, g using insertLoop.induct total batchSize db batch with
  | case1 i k g hg hr =>
    obtain ⟨row, g1, h⟩ := genRow_some g
    rw [h] at hr
    cases hr
  | case2 i k g hg row g1 hr hx ih =>
    have hlt : i < batchSize := by
      simp only [rowGuard, Bool.and_eq_true, decide_eq_true_eq] at hg
      exact hg.1
    obtain ⟨ih1, g2, ih2⟩ := ih hlt
    have e : batchSize - i = (batchSize - (i + 1)) + 1 := by omega
    rw [insertLoop, dif_pos hg]
    simp only [hr, hx, if_true]
    rw [e, List.range'_succ]
    refine ⟨?_, g2, ?_⟩
    · simp only [execCalls, List.filterMap_cons, List.map_cons] at ih1 ⊢
      rw [ih1, hx]
    · rw [ih2, List.countP_cons, hx]
      simp only [if_true]
      congr 2
      omega
  | case3 i k g hg row g1 hr hx ih =>
    have hlt : i < batchSize := by
      simp only [rowGuard, Bool.and_eq_true, decide_eq_true_eq] at hg
      exact hg.1
    obtain ⟨ih1, g2, ih2⟩ := ih hlt
    have e : batchSize - i = (batchSize - (i + 1)) + 1 := by omega
    have hx2 : db.execOk batch i = false := by simpa using hx
    rw [insertLoop, dif_pos hg]
    simp only [hr, hx2, Bool.false_eq_true, if_false]
    rw [e, List.range'_succ]
    refine ⟨?_, g2, ?_⟩
    · simp only [execCalls, List.filterMap_cons, List.map_cons] at ih1 ⊢
      rw [ih1, hx2]
    · rw [ih2, List.countP_cons, hx2]
      simp
  | case4 i k g hg =>
    rw [insertLoop, dif_neg hg]
    have : ¬ i < batchSize := by
      intro hlt
      apply hg
      simp only [rowGuard, Bool.and_eq_true, decide_eq_true_eq]
      refine ⟨hlt, ?_⟩
      have : batch * batchSize + batchSize ≤ total := by
        simpa [Nat.add_mul] using hb
      omega
    have e : batchSize - i = 0 := by omega
    rw [e]
    exact ⟨rfl, g, rfl⟩

/-- The `Exec` calls and the progress lines of the outer loop when it completes: every row
index of every batch is tried once, in order, and the counter of a batch is the number of
its calls that succeed. -/
theorem batchLoop_execs (total batchSize : Nat) (db : DB) (nb : Nat)
    (hnb : nb * batchSize ≤ total) (d : Nat) :
    ∀ (batch : Nat) (g : Rand), nb - batch = d →
      (batchLoop total batchSize db nb batch g).outcome = Outcome.completed →
      execCalls (batchLoop total batchSize db nb batch g).trace
        = (List.range' batch (nb - batch)).flatMap (fun b =>
            (List.range' 0 batchSize).map (fun i => (b, i, db.execOk b i))) ∧
      batchLines (batchLoop total batchSize db nb batch g).trace
        = (List.range' batch (nb - batch)).map (fun b =>
            (b, (List.range' 0 batchSize).countP (fun i => db.execOk b i))) := by
  induction d with
  | zero =>
    intro batch g hd _
    have h : ¬ batch < nb := by omega
    rw [batchLoop_done _ _ _ _ _ _ h, hd]
    exact ⟨rfl, rfl⟩
  | succ d ih =>
    intro batch g hd hf
    have h : batch < nb := by omega
    cases hb : db.beginOk batch with
    | false =>
      rw [batchLoop_begin_failed _ _ _ _ _ _ h hb] at hf
      cases hf
    | true =>
      cases hp : db.prepareOk batch with
      | false =>
        rw [batchLoop_prepare_failed _ _ _ _ _ _ h hb hp] at hf
        cases hf
      | true =>
        obtain ⟨rows, n, g1, hrows, hfail, hok⟩ :=
          batchLoop_step total batchSize db nb batch g h hb hp
        cases hc : db.closeOk batch with
        | false =>
          rw [hfail hc] at hf
          cases hf
        | true =>
          rw [hok hc] at hf ⊢
          obtain ⟨ih1, ih2⟩ := ih (batch + 1) g1 (by omega) hf
          have hre : RowEvents batch rows := by
            have := insertLoop_rowEvents total batchSize db batch 0 0 g
            rwa [hrows] at this
          obtain ⟨e1, g2, e2⟩ := insertLoop_execs total batchSize db batch 0 0 g
            (le_trans (Nat.mul_le_mul_right _ h) hnb) (Nat.zero_le _)
          rw [hrows] at e1 e2
          simp only [Option.some.injEq, Prod.mk.injEq, Nat.sub_zero, Nat.zero_add] at e1 e2
          have e : nb - batch = (nb - (batch + 1)) + 1 := by omega
          rw [e, List.range'_succ, List.flatMap_cons, List.map_cons, ← ih1, ← ih2, ← e1,
            ← e2.1]
          have hbl := hre.batchLines_eq
          simp only [execCalls, batchLines] at hbl ⊢
          cases db.commitOk batch <;> simp [List.filterMap_append, hbl]

/-- The `Exec` calls and the progress lines of a run that does not end in `log.Fatal`. -/
theorem mainWith_execs (total batchSize : Nat) (db : DB) (g : Rand)
    (hrun : (mainWith total batchSize db g).outcome ≠ Outcome.fatal) :
    execCalls (mainWith total batchSize db g).trace
      = (List.range (total / batchSize)).flatMap (fun b =>
          (List.range batchSize).map (fun i => (b, i, db.execOk b i))) ∧
    batchLines (mainWith total batchSize db g).trace
      = (List.range (total / batchSize)).map (fun b =>
          (b, (List.range batchSize).countP (fun i => db.execOk b i))) := by
  have hh := mainWith_healthy_of_not_fatal total batchSize db g hrun
  have hc : (batchLoop total batchSize db (total / batchSize) 0 g).outcome
      = Outcome.completed :=
    (batchLoop_outcome total batchSize db _ _ 0 g rfl).1 (fun b _ hb => hh.2 b hb)
  obtain ⟨h1, h2⟩ := batchLoop_execs total batchSize db (total / batchSize)
    (div_mul_le_total total batchSize) _ 0 g rfl hc
  rw [Nat.sub_zero] at h1 h2
  rw [mainWith_opened _ _ _ _ hh.1, List.range_eq_range', List.range_eq_range']
  simp only [execCalls, batchLines] at h1 h2 ⊢
  exact ⟨by simpa using h1, by simpa using h2⟩

/-- The list of all row indices of all batches has `nb * batchSize` entries. -/
theorem length_allRows (db : DB) (nb batchSize : Nat) :
    ((List.range nb).flatMap (fun b =>
      (List.range batchSize).map (fun i => (b, i, db.execOk b i)))).length
      = nb * batchSize := by
  induction nb with
  | zero => simp
  | succ n ih =>
    rw [List.range_succ, List.flatMap_append, List.length_append, ih]
    simp [Nat.add_mul]

/-- The total of the counters is the sum over the progress lines. -/
theorem insertedTotal_eq_sum (tr : List Event) :
    insertedTotal tr = ((batchLines tr).map Prod.snd).sum := by
  induction tr with
  | nil => rfl
  | cons e es ih =>
    simp only [insertedTotal, batchLines] at ih ⊢
    cases e <;> simp [List.filterMap_cons, ih]

/-- The failed calls are the `Exec` calls whose outcome is `false`. -/
theorem failedExecs_eq_countP (tr : List Event) :
    failedExecs tr = (execCalls tr).countP (fun c => !c.2.2) := by
  induction tr with
  | nil => rfl
  | cons e es ih =>
    simp only [failedExecs, execCalls] at ih ⊢
    cases e with
    | exec b i row ok => cases ok <;> simp [List.filterMap_cons, ih]
    | _ => simp [List.filterMap_cons, ih]

/-! ## Lemmas on the bijection between draws and scores -/

/-- A score `-(g 0 % n) - k` is a bijection from the draws `[0, n)` onto `[lo, -k]`,
where `lo = -(n - 1) - k`. -/
theorem drawBijection_neg (companyID : Int) (eventType : String) (n : Nat) (k lo : Int)
    (hn : 0 < n) (hlo : lo = -((n : Int) - 1) - k)
    (h : ∀ g : Rand, (calculateScore companyID eventType g).1 = -((g 0 % n : Nat) : Int) - k) :
    DrawBijection companyID eventType n lo (-k) := by
  have hf : ∀ r, r < n → scoreOfDraw companyID eventType r = -(r : Int) - k := by
    intro r hr
    rw [scoreOfDraw, h]
    simp only [Nat.mod_eq_of_lt hr]
  refine ⟨fun g => ?_, ?_, ?_, ?_⟩
  · rw [hf _ (Intn_lt n g hn), h]
    rfl
  · intro r hr
    have hr : r < n := hr
    rw [Set.mem_Icc, hf r hr]
    omega
  · intro r hr s hs heq
    have hr : r < n := hr
    have hs : s < n := hs
    rw [hf r hr, hf s hs] at heq
    omega
  · intro v hv
    rw [Set.mem_Icc] at hv
    have hr : (-k - v).toNat < n := by omega
    refine ⟨(-k - v).toNat, hr, ?_⟩
    show scoreOfDraw companyID eventType (-k - v).toNat = v
    rw [hf _ hr]
    omega

/-- A score `g 0 % n + k` is a bijection from the draws `[0, n)` onto `[k, hi]`, where
`hi = (n - 1) + k`. -/
theorem drawBijection_pos (companyID : Int) (eventType : String) (n : Nat) (k hi : Int)
    (hn : 0 < n) (hhi : hi = ((n : Int) - 1) + k)
    (h : ∀ g : Rand, (calculateScore companyID eventType g).1 = ((g 0 % n : Nat) : Int) + k) :
    DrawBijection companyID eventType n k hi := by
  have hf : ∀ r, r < n → scoreOfDraw companyID eventType r = (r : Int) + k := by
    intro r hr
    rw [scoreOfDraw, h]
    simp only [Nat.mod_eq_of_lt hr]
  refine ⟨fun g => ?_, ?_, ?_, ?_⟩
  · rw [hf _ (Intn_lt n g hn), h]
    rfl
  · intro r hr
    have hr : r < n := hr
    rw [Set.mem_Icc, hf r hr]
    omega
  · intro r hr s hs heq
    have hr : r < n := hr
    have hs : s < n := hs
    rw [hf r hr, hf s hs] at heq
    omega
  · intro v hv
    rw [Set.mem_Icc] at hv
    have hr : (v - k).toNat < n := by omega
    refine ⟨(v - k).toNat, hr, ?_⟩
    show scoreOfDraw companyID eventType (v - k).toNat = v
    rw [hf _ hr]
    omega

/-! ## Lemmas on 64-bit arithmetic and on the fields of a row -/

/-- C1: for every `companyID ≤ 4000` (4000 itself, zero and negative ids included), every
`eventType` string and every state of the random source, `calculateScore` returns a
strictly negative score. -/
theorem calculateScore_churn_negative (companyID : Int) (eventType : String) (g : Rand)
    (h : companyID ≤ 4000) : (calculateScore companyID eventType g).1 < 0 := by
  have := (calculateScore_range companyID eventType g).1 h
  omega

/-- C1 at the boundary id 4000. -/
theorem calculateScore_churn_negative_witness :
    (calculateScore 4000 "JOB_ACCEPTED" (fun _ => 25)).1 < 0 :=
  calculateScore_churn_negative 4000 "JOB_ACCEPTED" (fun _ => 25) (by decide)

/-- C2: for every `companyID > 4000` (4001 included), every `eventType` string and every
state of the random source, `calculateScore` returns a strictly positive score. -/
theorem calculateScore_healthy_positive (companyID : Int) (eventType : String) (g : Rand)
    (h : 4000 < companyID) : 0 < (calculateScore companyID eventType g).1 := by
  have := (calculateScore_range companyID eventType g).2 h
  omega

/-- C2 at the boundary id 4001. -/
theorem calculateScore_healthy_positive_witness :
    0 < (calculateScore 4001 "TENDER_DELETE" (fun _ => 25)).1 :=
  calculateScore_healthy_positive 4001 "TENDER_DELETE" (fun _ => 25) (by decide)

/-- C3: for every `companyID`, `eventType` and state of the random source the score lies
in the interval of the table: for `companyID ≤ 4000`, `[-25, -10]` on
SELF_PURCHASE_CANCEL, TENDER_DELETE and INACTIVE_30D, `[-12, -2]` on LOGIN and
BID_SUBMITTED, `[-6, -1]` on any other event; for `companyID > 4000`, `[15, 30]` on
JOB_ACCEPTED, `[10, 20]` on INVOICE_DOWNLOAD, `[3, 13]` on LOGIN and BID_SUBMITTED,
`[1, 6]` on any other event. -/
theorem calculateScore_table_interval (companyID : Int) (eventType : String) (g : Rand) :
    (companyID ≤ 4000 →
      ((eventType = "SELF_PURCHASE_CANCEL" ∨ eventType = "TENDER_DELETE" ∨
          eventType = "INACTIVE_30D") →
        -25 ≤ (calculateScore companyID eventType g).1 ∧
          (calculateScore companyID eventType g).1 ≤ -10) ∧
      ((eventType = "LOGIN" ∨ eventType = "BID_SUBMITTED") →
        -12 ≤ (calculateScore companyID eventType g).1 ∧
          (calculateScore companyID eventType g).1 ≤ -2) ∧
      ((eventType ≠ "SELF_PURCHASE_CANCEL" ∧ eventType ≠ "TENDER_DELETE" ∧
          eventType ≠ "INACTIVE_30D" ∧ eventType ≠ "LOGIN" ∧
          eventType ≠ "BID_SUBMITTED") →
        -6 ≤ (calculateScore companyID eventType g).1 ∧
          (calculateScore companyID eventType g).1 ≤ -1)) ∧
    (4000 < companyID →
      (eventType = "JOB_ACCEPTED" →
        15 ≤ (calculateScore companyID eventType g).1 ∧
          (calculateScore companyID eventType g).1 ≤ 30) ∧
      (eventType = "INVOICE_DOWNLOAD" →
        10 ≤ (calculateScore companyID eventType g).1 ∧
          (calculateScore companyID eventType g).1 ≤ 20) ∧
      ((eventType = "LOGIN" ∨ eventType = "BID_SUBMITTED") →
        3 ≤ (calculateScore companyID eventType g).1 ∧
          (calculateScore companyID eventType g).1 ≤ 13) ∧
      ((eventType ≠ "JOB_ACCEPTED" ∧ eventType ≠ "INVOICE_DOWNLOAD" ∧
          eventType ≠ "LOGIN" ∧ eventType ≠ "BID_SUBMITTED") →
        1 ≤ (calculateScore companyID eventType g).1 ∧
          (calculateScore companyID eventType g).1 ≤ 6)) := by
  refine ⟨fun hc => ⟨fun he => ?_, fun he => ?_, fun he => ?_⟩,
    fun hc => ⟨fun he => ?_, fun he => ?_, fun he => ?_, fun he => ?_⟩⟩
  · rw [calculateScore_churn_heavy companyID eventType g hc he]; omega
  · rw [calculateScore_churn_low companyID eventType g hc he]; omega
  · rw [calculateScore_churn_other companyID eventType g hc he.1 he.2.1 he.2.2.1
      he.2.2.2.1 he.2.2.2.2]
    omega
  · rw [calculateScore_healthy_job companyID eventType g hc he]; omega
  · rw [calculateScore_healthy_invoice companyID eventType g hc he]; omega
  · rw [calculateScore_healthy_low companyID eventType g hc he]; omega
  · rw [calculateScore_healthy_other companyID eventType g hc he.1 he.2.1 he.2.2.1
      he.2.2.2]
    omega

/-- C3 on a churn company with TENDER_DELETE and the largest draw. -/
theorem calculateScore_table_interval_witness :
    -25 ≤ (calculateScore 4000 "TENDER_DELETE" (fun _ => 15)).1 ∧
      (calculateScore 4000 "TENDER_DELETE" (fun _ => 15)).1 ≤ -10 :=
  ((calculateScore_table_interval 4000 "TENDER_DELETE" (fun _ => 15)).1 (by decide)).1
    (Or.inr (Or.inl rfl))

/-- C4: in each of the 7 cases of `calculateScore` the score is a function of the draw
`r = rand.Intn n` of that case, and this function is a bijection from `[0, n)` onto the
whole interval of the table, endpoints included: `n = 16` onto `[-25, -10]`, `n = 11` onto
`[-12, -2]` and `n = 6` onto `[-6, -1]` for `companyID ≤ 4000`; `n = 16` onto `[15, 30]`,
`n = 11` onto `[10, 20]`, `n = 11` onto `[3, 13]` and `n = 6` onto `[1, 6]` for
`companyID > 4000`. -/
theorem calculateScore_draw_bijection (companyID : Int) (eventType : String) :
    (companyID ≤ 4000 →
      ((eventType = "SELF_PURCHASE_CANCEL" ∨ eventType = "TENDER_DELETE" ∨
          eventType = "INACTIVE_30D") →
        DrawBijection companyID eventType 16 (-25) (-10)) ∧
      ((eventType = "LOGIN" ∨ eventType = "BID_SUBMITTED") →
        DrawBijection companyID eventType 11 (-12) (-2)) ∧
      ((eventType ≠ "SELF_PURCHASE_CANCEL" ∧ eventType ≠ "TENDER_DELETE" ∧
          eventType ≠ "INACTIVE_30D" ∧ eventType ≠ "LOGIN" ∧
          eventType ≠ "BID_SUBMITTED") →
        DrawBijection companyID eventType 6 (-6) (-1))) ∧
    (4000 < companyID →
      (eventType = "JOB_ACCEPTED" → DrawBijection companyID eventType 16 15 30) ∧
      (eventType = "INVOICE_DOWNLOAD" → DrawBijection companyID eventType 11 10 20) ∧
      ((eventType = "LOGIN" ∨ eventType = "BID_SUBMITTED") →
        DrawBijection companyID eventType 11 3 13) ∧
      ((eventType ≠ "JOB_ACCEPTED" ∧ eventType ≠ "INVOICE_DOWNLOAD" ∧
          eventType ≠ "LOGIN" ∧ eventType ≠ "BID_SUBMITTED") →
        DrawBijection companyID eventType 6 1 6)) := by
  refine ⟨fun hc => ⟨fun he => ?_, fun he => ?_, fun he => ?_⟩,
    fun hc => ⟨fun he => ?_, fun he => ?_, fun he => ?_, fun he => ?_⟩⟩
  · exact drawBijection_neg companyID eventType 16 10 (-25) (by decide) (by decide)
      (fun g => calculateScore_churn_heavy companyID eventType g hc he)
  · exact drawBijection_neg companyID eventType 11 2 (-12) (by decide) (by decide)
      (fun g => calculateScore_churn_low companyID eventType g hc he)
  · exact drawBijection_neg companyID eventType 6 1 (-6) (by decide) (by decide)
      (fun g => calculateScore_churn_other companyID eventType g hc he.1 he.2.1 he.2.2.1
        he.2.2.2.1 he.2.2.2.2)
  · exact drawBijection_pos companyID eventType 16 15 30 (by decide) (by decide)
      (fun g => calculateScore_healthy_job companyID eventType g hc he)
  · exact drawBijection_pos companyID eventType 11 10 20 (by decide) (by decide)
      (fun g => calculateScore_healthy_invoice companyID eventType g hc he)
  · exact drawBijection_pos companyID eventType 11 3 13 (by decide) (by decide)
      (fun g => calculateScore_healthy_low companyID eventType g hc he)
  · exact drawBijection_pos companyID eventType 6 1 6 (by decide) (by decide)
      (fun g => calculateScore_healthy_other companyID eventType g hc he.1 he.2.1 he.2.2.1
        he.2.2.2)

/-- C4 on a healthy company with JOB_ACCEPTED: draws `[0, 16)` onto `[15, 30]`. -/
theorem calculateScore_draw_bijection_witness :
    DrawBijection 4001 "JOB_ACCEPTED" 16 15 30 :=
  ((calculateScore_draw_bijection 4001 "JOB_ACCEPTED").2 (by decide)).1 rfl

/-! ## The batch loop: claims C5, C6, C7 -/

/-- C5: for every `TOTAL_ROWS` and every `BATCH_SIZE > 0`, a run without fatal error
carries exactly `TOTAL_ROWS / BATCH_SIZE` batches through, every batch makes exactly
`BATCH_SIZE` calls of `Exec`, and the guard of the inner loop holds at every row index
`i < BATCH_SIZE` of every batch, so it never cuts a batch short. -/
theorem mainWith_full_batches (total batchSize : Nat) (db : DB) (g : Rand)
    (_hB : 0 < batchSize) (hrun : (mainWith total batchSize db g).outcome ≠ Outcome.fatal) :
    batchesRun (mainWith total batchSize db g).trace = total / batchSize ∧
    (∀ batch, batch < total / batchSize →
      attempts batch (mainWith total batchSize db g).trace = batchSize) ∧
    (∀ batch i, batch < total / batchSize → i < batchSize →
      rowGuard total batchSize batch i = true ∧ batch * batchSize + i < total) := by
  obtain ⟨h1, h2, -⟩ := mainWith_counts total batchSize db g hrun
  exact ⟨h1, h2, fun batch i hb hi => rowGuard_of_lt total batchSize batch i hb hi⟩

/-- C5 at `TOTAL_ROWS = 300000`, `BATCH_SIZE = 100000`: exactly 3 batches, each of exactly
100000 calls of `Exec`. -/
theorem mainWith_full_batches_witness :
    batchesRun (mainWith 300000 100000 allOk (fun _ => 0)).trace = 3 ∧
    (∀ batch, batch < 3 →
      attempts batch (mainWith 300000 100000 allOk (fun _ => 0)).trace = 100000) := by
  have hrun : (mainWith 300000 100000 allOk (fun _ => 0)).outcome ≠ Outcome.fatal := by
    rw [mainWith_completed 300000 100000 allOk _ ⟨rfl, fun _ _ => ⟨rfl, rfl, rfl⟩⟩]
    decide
  have h := mainWith_full_batches 300000 100000 allOk (fun _ => 0) (by decide) hrun
  have e : 300000 / 100000 = 3 := by decide
  rw [e] at h
  exact ⟨h.1, h.2.1⟩

/-- C6: for every `TOTAL_ROWS`, every `BATCH_SIZE > 0` and every pattern of `Exec` outcomes,
in a run without fatal error the `rowsInserted` counters of all batches add up to
`TOTAL_ROWS - TOTAL_ROWS mod BATCH_SIZE` minus the number of failed `Exec` calls. The
`Exec` calls made are exactly one for every row index `i < BATCH_SIZE` of every batch
`b < TOTAL_ROWS / BATCH_SIZE`, in order and each with the outcome the database gives it: a
failed call is followed by the call for the next row, and the
`TOTAL_ROWS mod BATCH_SIZE` remainder rows are never tried, the calls being
`TOTAL_ROWS - TOTAL_ROWS mod BATCH_SIZE` in number. The counter printed for a batch is
the number of its calls that succeed, so a failed call leaves it as it is. -/
theorem mainWith_rows_inserted (total batchSize : Nat) (db : DB) (g : Rand)
    (_hB : 0 < batchSize) (hrun : (mainWith total batchSize db g).outcome ≠ Outcome.fatal) :
    insertedTotal (mainWith total batchSize db g).trace
      = total - total % batchSize - failedExecs (mainWith total batchSize db g).trace ∧
    insertedTotal (mainWith total batchSize db g).trace
      + failedExecs (mainWith total batchSize db g).trace = total - total % batchSize ∧
    execCalls (mainWith total batchSize db g).trace
      = (List.range (total / batchSize)).flatMap (fun b =>
          (List.range batchSize).map (fun i => (b, i, db.execOk b i))) ∧
    (execCalls (mainWith total batchSize db g).trace).length = total - total % batchSize ∧
    (∀ batch, batch < total / batchSize →
      attempts batch (mainWith total batchSize db g).trace = batchSize) ∧
    batchLines (mainWith total batchSize db g).trace
      = (List.range (total / batchSize)).map (fun b =>
          (b, (List.range batchSize).countP (fun i => db.execOk b i))) ∧
    failedExecs (mainWith total batchSize db g).trace
      = (execCalls (mainWith total batchSize db g).trace).countP (fun c => !c.2.2) ∧
    insertedTotal (mainWith total batchSize db g).trace
      = ((batchLines (mainWith total batchSize db g).trace).map Prod.snd).sum := by
  obtain ⟨-, h2, h3⟩ := mainWith_counts total batchSize db g hrun
  obtain ⟨h4, h5⟩ := mainWith_execs total batchSize db g hrun
  refine ⟨by omega, h3, h4, ?_, h2, h5, failedExecs_eq_countP _, insertedTotal_eq_sum _⟩
  rw [h4, length_allRows, div_mul_eq_sub_mod]

/-- C6 at `TOTAL_ROWS = 7`, `BATCH_SIZE = 2`, with the second `Exec` of every batch and the
first `Commit` failing: 6 calls, rows 0 and 1 of batches 0, 1 and 2, the seventh row
never tried; 3 rows counted, one on each progress line, and 3 failures. -/
theorem mainWith_rows_inserted_witness :
    execCalls (mainWith 7 2 flakyRows (fun k => 4000 + 7 * k)).trace
      = [(0, 0, true), (0, 1, false), (1, 0, true), (1, 1, false), (2, 0, true),
          (2, 1, false)] ∧
    batchLines (mainWith 7 2 flakyRows (fun k => 4000 + 7 * k)).trace
      = [(0, 1), (1, 1), (2, 1)] ∧
    insertedTotal (mainWith 7 2 flakyRows (fun k => 4000 + 7 * k)).trace = 3 ∧
    failedExecs (mainWith 7 2 flakyRows (fun k => 4000 + 7 * k)).trace = 3 ∧
    insertedTotal (mainWith 7 2 flakyRows (fun k => 4000 + 7 * k)).trace
      = 7 - 7 % 2 - failedExecs (mainWith 7 2 flakyRows (fun k => 4000 + 7 * k)).trace := by
  have hrun : (mainWith 7 2 flakyRows (fun k => 4000 + 7 * k)).outcome ≠ Outcome.fatal := by
    rw [mainWith_completed 7 2 flakyRows _ ⟨rfl, fun _ _ => ⟨rfl, rfl, rfl⟩⟩]
    decide
  obtain ⟨h1, -, h3, -, -, h6, h7, h8⟩ :=
    mainWith_rows_inserted 7 2 flakyRows (fun k => 4000 + 7 * k) (by decide) hrun
  have e3 : (List.range (7 / 2)).flatMap (fun b =>
      (List.range 2).map (fun i => (b, i, flakyRows.execOk b i)))
      = [(0, 0, true), (0, 1, false), (1, 0, true), (1, 1, false), (2, 0, true),
          (2, 1, false)] := by decide
  have e6 : (List.range (7 / 2)).map (fun b =>
      (b, (List.range 2).countP (fun i => flakyRows.execOk b i)))
      = [(0, 1), (1, 1), (2, 1)] := by decide
  rw [e3] at h3
  rw [e6] at h6
  refine ⟨h3, h6, ?_, ?_, h1⟩
  · rw [h8, h6]
    rfl
  · rw [h7, h3]
    rfl

/-- C7: with the outcome of every database call fixed by an arbitrary oracle, the run ends
in `log.Fatal` if and only if `sql.Open` fails or `BeginTx`, `Prepare` or `Close` fails in
one of the `TOTAL_ROWS / BATCH_SIZE` batches; a run aborted in a batch has carried fewer
batches through, any other run carries all of them through. The outcomes of `Exec` and
`Commit` have no influence on how the run ends. When the first failure is a `Prepare` or a
`Close`, the failed call is followed by `Rollback` of that batch and by `log.Fatal`, which
end the run;
after a failed `Commit` the progress line is printed and the next batch is begun. -/
theorem mainWith_abort_iff (total batchSize : Nat) (db : DB) (g : Rand) :
    ((mainWith total batchSize db g).outcome = Outcome.fatal ↔
      (db.openOk = false ∨ ∃ b, b < total / batchSize ∧
        (db.beginOk b = false ∨ db.prepareOk b = false ∨ db.closeOk b = false))) ∧
    ((mainWith total batchSize db g).outcome ≠ Outcome.fatal →
      (mainWith total batchSize db g).outcome = Outcome.completed ∧
      batchesRun (mainWith total batchSize db g).trace = total / batchSize) ∧
    ((mainWith total batchSize db g).outcome = Outcome.fatal → db.openOk = true →
      batchesRun (mainWith total batchSize db g).trace < total / batchSize) ∧
    (∀ (execOk : Nat → Nat → Bool) (commitOk : Nat → Bool),
      (mainWith total batchSize
        ⟨db.openOk, db.beginOk, db.prepareOk, execOk, db.closeOk, commitOk⟩ g).outcome
        = (mainWith total batchSize db g).outcome) ∧
    (∀ b, db.openOk = true → b < total / batchSize →
      (∀ c, c < b → db.beginOk c = true ∧ db.prepareOk c = true ∧ db.closeOk c = true) →
      db.beginOk b = true → db.prepareOk b = false →
      ∃ pre, (mainWith total batchSize db g).trace
          = pre ++ [Event.prepare b false, Event.rollback b,
              Event.logFatal "Prepare failed: "]) ∧
    (∀ b, db.openOk = true → b < total / batchSize →
      (∀ c, c < b → db.beginOk c = true ∧ db.prepareOk c = true ∧ db.closeOk c = true) →
      db.beginOk b = true → db.prepareOk b = true → db.closeOk b = false →
      ∃ pre, (mainWith total batchSize db g).trace
          = pre ++ [Event.stmtClose b false, Event.rollback b,
              Event.logFatal "Stmt close failed: "]) ∧
    (∀ b, db.openOk = true → b + 1 < total / batchSize →
      (∀ c, c ≤ b → db.beginOk c = true ∧ db.prepareOk c = true ∧ db.closeOk c = true) →
      db.commitOk b = false →
      ∃ pre n post, (mainWith total batchSize db g).trace
          = pre ++ Event.commit b false :: Event.logPrintf "Commit failed" ::
              Event.batchLine b n :: Event.beginTx (b + 1) (db.beginOk (b + 1)) :: post) := by
  have key : ∀ (db1 : DB),
      ((mainWith total batchSize db1 g).outcome = Outcome.fatal ↔
        (db1.openOk = false ∨ ∃ b, b < total / batchSize ∧
          (db1.beginOk b = false ∨ db1.prepareOk b = false ∨ db1.closeOk b = false))) ∧
      ((mainWith total batchSize db1 g).outcome ≠ Outcome.fatal →
        (mainWith total batchSize db1 g).outcome = Outcome.completed) := by
    intro db1
    refine ⟨⟨fun hf => ?_, mainWith_fatal total batchSize db1 g⟩, fun hn =>
      mainWith_completed _ _ _ _ (mainWith_healthy_of_not_fatal _ _ _ _ hn)⟩
    by_contra hcon
    have hh : Healthy total batchSize db1 := by
      by_contra hnh
      exact hcon (not_healthy _ _ _ hnh)
    rw [mainWith_completed _ _ _ _ hh] at hf
    cases hf
  refine ⟨(key db).1, fun hn => ?_, fun hf ho => ?_, fun execOk commitOk => ?_,
    fun b ho hb hall hbeg hfail => ?_, fun b ho hb hall hbeg hprep hfail => ?_,
    fun b ho hb hall hcm => ?_⟩
  · have hc := (key db).2 hn
    refine ⟨hc, ?_⟩
    have hh := mainWith_healthy_of_not_fatal total batchSize db g hn
    rw [mainWith_opened _ _ _ _ hh.1] at hc ⊢
    have := (batchLoop_counts total batchSize db (total / batchSize) _ 0 g rfl).1 hc
    simp only [batchesRun] at this ⊢
    simpa using this
  · rw [mainWith_opened _ _ _ _ ho] at hf ⊢
    have := (batchLoop_counts total batchSize db (total / batchSize) _ 0 g rfl).2.1 hf
    simp only [batchesRun] at this ⊢
    simpa using this
  · have k2 := key ⟨db.openOk, db.beginOk, db.prepareOk, execOk, db.closeOk, commitOk⟩
    by_cases hf : (mainWith total batchSize db g).outcome = Outcome.fatal
    · rw [hf]
      exact k2.1.2 ((key db).1.1 hf)
    · rw [(key db).2 hf]
      apply k2.2
      intro hf2
      exact hf ((key db).1.2 (k2.1.1 hf2))
  · obtain ⟨pre, g1, e1, -⟩ := batchLoop_reach total batchSize db (total / batchSize) b _ 0 g
      rfl (Nat.zero_le _) (Nat.le_of_lt hb) (fun c _ hc => hall c hc)
    obtain ⟨pre2, e2⟩ :=
      batchLoop_prepare_rollback total batchSize db (total / batchSize) b g1 hb hbeg hfail
    rw [mainWith_opened _ _ _ _ ho]
    refine ⟨Event.sqlOpen true :: pre ++ pre2, ?_⟩
    simp only [e1, e2, List.cons_append, List.append_assoc]
  · obtain ⟨pre, g1, e1, -⟩ := batchLoop_reach total batchSize db (total / batchSize) b _ 0 g
      rfl (Nat.zero_le _) (Nat.le_of_lt hb) (fun c _ hc => hall c hc)
    obtain ⟨pre2, e2⟩ :=
      batchLoop_close_rollback total batchSize db (total / batchSize) b g1 hb hbeg hprep
        hfail
    rw [mainWith_opened _ _ _ _ ho]
    refine ⟨Event.sqlOpen true :: pre ++ pre2, ?_⟩
    simp only [e1, e2, List.cons_append, List.append_assoc]
  · obtain ⟨pre, g1, e1, -⟩ := batchLoop_reach total batchSize db (total / batchSize) b _ 0 g
      rfl (Nat.zero_le _) (by omega) (fun c _ hc => hall c (Nat.le_of_lt hc))
    obtain ⟨hbeg, hprep, hclose⟩ := hall b (Nat.le_refl _)
    obtain ⟨pre2, n, post, e2⟩ :=
      batchLoop_commit_failed total batchSize db (total / batchSize) b g1 hb hbeg hprep
        hclose hcm
    rw [mainWith_opened _ _ _ _ ho]
    refine ⟨Event.sqlOpen true :: pre ++ pre2, n, post, ?_⟩
    simp only [e1, e2, List.cons_append, List.append_assoc]

/-- C7 on a run of 3 batches of 2 rows whose first `Commit` fails and whose third
`Prepare` fails: the run ends in `log.Fatal` right after the `Rollback` of batch 2, and the
failed `Commit` of batch 0 is followed by the progress line and the `BeginTx` of batch 1. -/
theorem mainWith_abort_iff_witness :
    (mainWith 7 2 brokenPrepare (fun k => 4000 + 7 * k)).outcome = Outcome.fatal ∧
    (∃ pre, (mainWith 7 2 brokenPrepare (fun k => 4000 + 7 * k)).trace
      = pre ++ [Event.prepare 2 false, Event.rollback 2,
          Event.logFatal "Prepare failed: "]) ∧
    (∃ pre n post, (mainWith 7 2 brokenPrepare (fun k => 4000 + 7 * k)).trace
      = pre ++ Event.commit 0 false :: Event.logPrintf "Commit failed" ::
          Event.batchLine 0 n :: Event.beginTx 1 true :: post) := by
  have h := mainWith_abort_iff 7 2 brokenPrepare (fun k => 4000 + 7 * k)
  have hok : ∀ c, c < 2 → brokenPrepare.beginOk c = true ∧
      brokenPrepare.prepareOk c = true ∧ brokenPrepare.closeOk c = true := by
    intro c hc
    refine ⟨rfl, ?_, rfl⟩
    interval_cases c <;> rfl
  exact ⟨h.1.2 (Or.inr ⟨2, by decide, Or.inr (Or.inl rfl)⟩),
    h.2.2.2.2.1 2 rfl (by decide) hok rfl rfl,
    h.2.2.2.2.2.2 0 rfl (by decide) (fun c hc => hok c (by omega)) rfl⟩

/-! ## The fields of a row: claims C8, C9, C10 -/

end Scoring
